import Mathlib

/-!
Shallow embedding of the trajectory sampling and closest-pair analytics
engine of the viewer repository (the validation selectors module), together
with proofs of the specified properties.

JavaScript numbers are modelled as exact rationals; the square roots
produced by `Math.hypot` are modelled in `ℝ` via `Real.sqrt` on top of a
computable rational sum-of-squares core.
-/

namespace Viewer

/-- A 3D point/vector `{x, y, z}` in show space (value type). -/
structure Point3 where
  x : ℚ
  y : ℚ
  z : ℚ
deriving DecidableEq, Repr, Inhabited

/-- Embedding of lodash `range(n)` as invoked by the grid generator: for
`n ≥ 0` it is `[0, 1, …, n-1]`; for `n < 0` lodash uses step `-1` and yields
`[0, -1, …, n+1]`. -/
def lodashRange (n : ℤ) : List ℤ :=
  if 0 ≤ n then (List.range n.toNat).map (fun i => Int.ofNat i)
  else (List.range (-n).toNat).map (fun i => -(Int.ofNat i))

/-- Embedding of `getSampledTimeInstants` (selectors module): the number of
samples is `Math.ceil(duration * SAMPLES_PER_SECOND)`; the instants are
`i / SAMPLES_PER_SECOND`; if the last emitted instant is strictly below the
duration, the duration itself is appended.  The constant
`SAMPLES_PER_SECOND` lives in the repository's `constants` module, which is
not among the provided sources; it is abstracted as the `rate` argument. -/
def getSampledTimeInstants (rate duration : ℚ) : List ℚ :=
  let numberSamples : ℤ := ⌈duration * rate⌉
  let result := (lodashRange numberSamples).map (fun (x : ℤ) => (x : ℚ) / rate)
  match result.getLast? with
  | some last => if last < duration then result ++ [duration] else result
  | none => result

lemma sampled_zero (rate : ℚ) : getSampledTimeInstants rate 0 = [] := by
  simp [getSampledTimeInstants, lodashRange]

lemma range_elem_div_lt {rate duration : ℚ} (hr : 0 < rate) {i : ℕ}
    (hi : i < (⌈duration * rate⌉).toNat) : (i : ℚ) / rate < duration := by
  rw [div_lt_iff₀ hr]
  have h1 : (i : ℤ) ≤ ⌈duration * rate⌉ - 1 := by omega
  have h2 : (i : ℚ) ≤ (⌈duration * rate⌉ : ℚ) - 1 := by exact_mod_cast h1
  have h3 : (⌈duration * rate⌉ : ℚ) < duration * rate + 1 := Int.ceil_lt_add_one _
  linarith

/-- For a strictly positive duration the produced grid consists of the
uniform instants `i / rate` for `i < ⌈duration * rate⌉` followed by the
duration itself (the trailing append always fires). -/
lemma sampled_pos_eq {rate duration : ℚ} (hr : 0 < rate) (hd : 0 < duration) :
    getSampledTimeInstants rate duration =
      (List.range (⌈duration * rate⌉).toNat).map (fun (i : ℕ) => (i : ℚ) / rate)
        ++ [duration] := by
  have hn : 0 < ⌈duration * rate⌉ := Int.ceil_pos.mpr (mul_pos hd hr)
  obtain ⟨M, hM⟩ : ∃ M, (⌈duration * rate⌉).toNat = M + 1 :=
    ⟨(⌈duration * rate⌉).toNat - 1, by omega⟩
  have hcast : ((lodashRange ⌈duration * rate⌉).map (fun (x : ℤ) => (x : ℚ) / rate))
      = (List.range (⌈duration * rate⌉).toNat).map (fun (i : ℕ) => (i : ℚ) / rate) := by
    rw [lodashRange, if_pos hn.le, List.map_map]
    refine List.map_congr_left ?_
    intro a _
    simp [Function.comp]
  show (match ((lodashRange ⌈duration * rate⌉).map
      (fun (x : ℤ) => (x : ℚ) / rate)).getLast? with
    | some last => if last < duration
        then ((lodashRange ⌈duration * rate⌉).map (fun (x : ℤ) => (x : ℚ) / rate))
          ++ [duration]
        else (lodashRange ⌈duration * rate⌉).map (fun (x : ℤ) => (x : ℚ) / rate)
    | none => (lodashRange ⌈duration * rate⌉).map (fun (x : ℤ) => (x : ℚ) / rate)) = _
  rw [hcast, hM, List.range_succ, List.map_append]
  simp only [List.map_cons, List.map_nil, List.getLast?_concat]
  rw [if_pos (range_elem_div_lt hr (show M < (⌈duration * rate⌉).toNat by omega))]

/-- C2: for every rate > 0 and duration ≥ 0, the sample grid returned by
`getSampledTimeInstants` is strictly increasing, all its elements lie in
`[0, duration]`, when non-empty it starts at `0` and ends exactly at the
duration, its length is `⌈duration * rate⌉` or that plus one, and a zero
duration yields the empty grid. -/
theorem getSampledTimeInstants_grid_spec (rate duration : ℚ) (hrate : 0 < rate)
    (hdur : 0 ≤ duration) :
    (getSampledTimeInstants rate duration).Pairwise (· < ·) ∧
    (∀ t ∈ getSampledTimeInstants rate duration, 0 ≤ t ∧ t ≤ duration) ∧
    (getSampledTimeInstants rate duration ≠ [] →
      (getSampledTimeInstants rate duration).head? = some 0 ∧
      (getSampledTimeInstants rate duration).getLast? = some duration) ∧
    ((getSampledTimeInstants rate duration).length = (⌈duration * rate⌉).toNat ∨
      (getSampledTimeInstants rate duration).length
        = (⌈duration * rate⌉).toNat + 1) ∧
    (duration = 0 → getSampledTimeInstants rate duration = []) := by
  rcases eq_or_lt_of_le hdur with h0 | hpos
  · refine ⟨?_, ?_, ?_, ?_, ?_⟩ <;>
      simp [← h0, sampled_zero]
  · have heq := sampled_pos_eq hrate hpos
    have hN : 0 < (⌈duration * rate⌉).toNat := by
      have := Int.ceil_pos.mpr (mul_pos hpos hrate)
      omega
    refine ⟨?_, ?_, ?_, ?_, ?_⟩
    · rw [heq, List.pairwise_append]
      refine ⟨?_, List.pairwise_singleton _ _, ?_⟩
      · rw [List.pairwise_map]
        refine (List.pairwise_lt_range _).imp ?_
        intro a b hab
        rw [div_lt_div_iff_of_pos_right hrate]
        exact_mod_cast hab
      · intro a ha b hb
        rw [List.mem_map] at ha
        obtain ⟨i, hi, rfl⟩ := ha
        rw [List.mem_range] at hi
        rw [List.mem_singleton] at hb
        subst hb
        exact range_elem_div_lt hrate hi
    · intro t ht
      rw [heq, List.mem_append] at ht
      rcases ht with ht | ht
      · rw [List.mem_map] at ht
        obtain ⟨i, hi, rfl⟩ := ht
        rw [List.mem_range] at hi
        exact ⟨div_nonneg (Nat.cast_nonneg i) hrate.le,
          (range_elem_div_lt hrate hi).le⟩
      · rw [List.mem_singleton] at ht
        subst ht
        exact ⟨hpos.le, le_refl _⟩
    · intro _
      constructor
      · obtain ⟨M, hM⟩ : ∃ M, (⌈duration * rate⌉).toNat = M + 1 :=
          ⟨(⌈duration * rate⌉).toNat - 1, by omega⟩
        rw [heq, hM, List.range_succ_eq_map]
        simp
      · rw [heq, List.getLast?_concat]
    · right
      rw [heq]
      simp
    · intro h
      exact absurd h (by linarith)

/-- Witness for C2 at rate 4 and duration 5/2 (the spec's own example). -/
theorem getSampledTimeInstants_grid_spec_witness :
    ((0:ℚ) < 4 ∧ (0:ℚ) ≤ 5/2) ∧
    ((getSampledTimeInstants 4 (5/2)).Pairwise (· < ·) ∧
    (∀ t ∈ getSampledTimeInstants 4 (5/2), 0 ≤ t ∧ t ≤ 5/2) ∧
    (getSampledTimeInstants 4 (5/2) ≠ [] →
      (getSampledTimeInstants 4 (5/2)).head? = some 0 ∧
      (getSampledTimeInstants 4 (5/2)).getLast? = some (5/2)) ∧
    ((getSampledTimeInstants 4 (5/2)).length = (⌈(5/2 : ℚ) * 4⌉).toNat ∨
      (getSampledTimeInstants 4 (5/2)).length = (⌈(5/2 : ℚ) * 4⌉).toNat + 1) ∧
    ((5/2 : ℚ) = 0 → getSampledTimeInstants 4 (5/2) = [])) :=
  ⟨⟨by norm_num, by norm_num⟩,
    getSampledTimeInstants_grid_spec 4 (5/2) (by norm_num) (by norm_num)⟩

/-- C3 counterexample: a negative duration is not rejected — at rate 1 the
duration −1 still produces the non-empty sample grid `[0]`. -/
theorem getSampledTimeInstants_neg_counterexample :
    getSampledTimeInstants 1 (-1) = [0] ∧ getSampledTimeInstants 1 (-1) ≠ [] := by
  have hceil : ⌈(-1 : ℚ) * 1⌉ = (-1 : ℤ) := by
    rw [mul_one, show (-1 : ℚ) = ((-1 : ℤ) : ℚ) by norm_num, Int.ceil_intCast]
  have hlr : lodashRange (-1) = [0] := by decide
  constructor
  · simp only [getSampledTimeInstants, hceil, hlr]
    norm_num
  · simp only [getSampledTimeInstants, hceil, hlr]
    norm_num

/-- C3 (amended): `getSampledTimeInstants` performs no input validation;
whenever `duration * rate ≤ -1` the negative duration still yields a
non-empty grid starting at 0 (rejection is the upstream caller's duty). -/
theorem getSampledTimeInstants_no_rejection (rate duration : ℚ) (hr : 0 < rate)
    (hd : duration < 0) (hlow : duration * rate ≤ -1) :
    getSampledTimeInstants rate duration ≠ [] ∧
    (getSampledTimeInstants rate duration).head? = some 0 := by
  have hn : ⌈duration * rate⌉ ≤ -1 := by
    rw [Int.ceil_le]
    exact_mod_cast hlow
  obtain ⟨K, hK⟩ : ∃ K, (-⌈duration * rate⌉).toNat = K + 1 :=
    ⟨(-⌈duration * rate⌉).toNat - 1, by omega⟩
  have hlr : lodashRange ⌈duration * rate⌉
      = (List.range (K + 1)).map (fun i => -(Int.ofNat i)) := by
    rw [lodashRange, if_neg (by omega), hK]
  have hres : (lodashRange ⌈duration * rate⌉).map (fun (x : ℤ) => (x : ℚ) / rate)
      = (List.range (K + 1)).map (fun i => ((-(Int.ofNat i) : ℤ) : ℚ) / rate) := by
    rw [hlr, List.map_map]
    rfl
  have hlast : ((List.range (K + 1)).map
      (fun i => ((-(Int.ofNat i) : ℤ) : ℚ) / rate)).getLast?
      = some (((-(Int.ofNat K) : ℤ) : ℚ) / rate) := by
    rw [List.range_succ, List.map_append]
    simp
  have hnotlt : ¬ (((-(Int.ofNat K) : ℤ) : ℚ) / rate < duration) := by
    rw [not_lt, le_div_iff₀ hr]
    have hceil : duration * rate ≤ (⌈duration * rate⌉ : ℚ) := Int.le_ceil _
    have : ((-(Int.ofNat K) : ℤ) : ℚ) = (⌈duration * rate⌉ : ℚ) + 1 := by
      rw [show (-(Int.ofNat K) : ℤ) = ⌈duration * rate⌉ + 1 by
        simp only [Int.ofNat_eq_natCast]; omega]
      push_cast
      ring
    rw [this]
    linarith
  simp only [getSampledTimeInstants, hres, hlast, if_neg hnotlt]
  constructor
  · simp
  · rw [List.range_succ_eq_map]
    simp

/-- Witness for the amended C3 at rate 1 and duration −1. -/
theorem getSampledTimeInstants_no_rejection_witness :
    ((0:ℚ) < 1 ∧ (-1:ℚ) < 0 ∧ (-1:ℚ) * 1 ≤ -1) ∧
    (getSampledTimeInstants 1 (-1) ≠ [] ∧
      (getSampledTimeInstants 1 (-1)).head? = some 0) :=
  ⟨⟨by norm_num, by norm_num, by norm_num⟩,
    getSampledTimeInstants_no_rejection 1 (-1) (by norm_num) (by norm_num)
      (by norm_num)⟩

/-- Squared Euclidean distance between two points (exact rational). -/
def distSq (p q : Point3) : ℚ :=
  (p.x - q.x)^2 + (p.y - q.y)^2 + (p.z - q.z)^2

/-- JavaScript `Math.hypot(a, b, c)`: the Euclidean norm √(a² + b² + c²). -/
noncomputable def hypot3 (a b c : ℚ) : ℝ :=
  Real.sqrt ((a : ℝ)^2 + (b : ℝ)^2 + (c : ℝ)^2)

noncomputable def dist3 (p q : Point3) : ℝ :=
  hypot3 (p.x - q.x) (p.y - q.y) (p.z - q.z)

def allPairs : List Point3 → List (Point3 × Point3)
  | [] => []
  | p :: rest => rest.map (fun q => (p, q)) ++ allPairs rest

def pickCloser (best : Option (Point3 × Point3)) (pq : Point3 × Point3) :
    Option (Point3 × Point3) :=
  match best with
  | none => some pq
  | some b => if distSq pq.1 pq.2 < distSq b.1 b.2 then some pq else some b

/-- Modelled from the spec: the repository's `closest-pair` module (imported
by the selectors as `getClosestPair`) is not among the provided sources, only
its caller is.  Per spec §4.4 it returns the pair of points at exactly
minimal Euclidean distance, "no pair" below two points, with a deterministic
tie-break; it is modelled as the brute-force pairwise scan the spec names as
the preferred strategy. -/
def getClosestPair (points : List Point3) : Option (Point3 × Point3) :=
  (allPairs points).foldl pickCloser none

lemma pickCloser_ne_none (acc : Option (Point3 × Point3)) (a : Point3 × Point3) :
    pickCloser acc a ≠ none := by
  cases acc with
  | none => simp [pickCloser]
  | some b =>
    simp only [pickCloser]
    split <;> simp

lemma pickCloser_spec (acc : Option (Point3 × Point3)) (a b : Point3 × Point3)
    (h : pickCloser acc a = some b) :
    (b = a ∨ acc = some b) ∧ distSq b.1 b.2 ≤ distSq a.1 a.2 ∧
      (∀ c, acc = some c → distSq b.1 b.2 ≤ distSq c.1 c.2) := by
  cases acc with
  | none =>
    simp only [pickCloser, Option.some.injEq] at h
    subst h
    exact ⟨Or.inl rfl, le_refl _, by simp⟩
  | some c =>
    simp only [pickCloser] at h
    split at h
    · rename_i hlt
      cases h
      exact ⟨Or.inl rfl, le_refl _,
        fun d hd => by cases hd; exact hlt.le⟩
    · rename_i hge
      cases h
      exact ⟨Or.inr rfl, not_lt.mp hge,
        fun d hd => by cases hd; exact le_refl _⟩

lemma foldl_pickCloser_eq_none (l : List (Point3 × Point3))
    (acc : Option (Point3 × Point3)) :
    l.foldl pickCloser acc = none ↔ acc = none ∧ l = [] := by
  induction l generalizing acc with
  | nil => simp
  | cons a l ih =>
    rw [List.foldl_cons, ih]
    simp only [List.cons_ne_nil, and_false, iff_false, not_and]
    intro h
    exact absurd h (pickCloser_ne_none acc a)

lemma foldl_pickCloser_spec (l : List (Point3 × Point3))
    (acc : Option (Point3 × Point3)) (pq : Point3 × Point3)
    (h : l.foldl pickCloser acc = some pq) :
    (pq ∈ l ∨ acc = some pq) ∧
      (∀ ab ∈ l, distSq pq.1 pq.2 ≤ distSq ab.1 ab.2) ∧
      (∀ b, acc = some b → distSq pq.1 pq.2 ≤ distSq b.1 b.2) := by
  induction l generalizing acc with
  | nil =>
    refine ⟨Or.inr h, by simp, fun b hb => ?_⟩
    rw [hb] at h
    cases h
    exact le_refl _
  | cons a l ih =>
    rw [List.foldl_cons] at h
    obtain ⟨hmem, hmin, hacc⟩ := ih (pickCloser acc a) h
    obtain ⟨b₀, hb₀⟩ : ∃ b₀, pickCloser acc a = some b₀ := by
      cases hpc : pickCloser acc a with
      | none => exact absurd hpc (pickCloser_ne_none acc a)
      | some b₀ => exact ⟨b₀, rfl⟩
    obtain ⟨hb₀mem, hb₀a, hb₀acc⟩ := pickCloser_spec acc a b₀ hb₀
    have hpqb₀ : distSq pq.1 pq.2 ≤ distSq b₀.1 b₀.2 := hacc b₀ hb₀
    refine ⟨?_, ?_, ?_⟩
    · rcases hmem with hmem | hmem
      · exact Or.inl (List.mem_cons_of_mem a hmem)
      · obtain ⟨h1, _, _⟩ := pickCloser_spec acc a pq hmem
        rcases h1 with h1 | h1
        · exact Or.inl (h1 ▸ List.mem_cons_self a l)
        · exact Or.inr h1
    · intro ab hab
      rcases List.mem_cons.mp hab with hab | hab
      · subst hab
        exact hpqb₀.trans hb₀a
      · exact hmin ab hab
    · intro b hb
      exact hpqb₀.trans (hb₀acc b hb)

lemma allPairs_eq_nil (l : List Point3) : allPairs l = [] ↔ l.length ≤ 1 := by
  match l with
  | [] => simp [allPairs]
  | [a] => simp [allPairs]
  | a :: b :: t => simp [allPairs]

lemma getClosestPair_eq_none (l : List Point3) :
    getClosestPair l = none ↔ l.length ≤ 1 := by
  rw [getClosestPair, foldl_pickCloser_eq_none]
  simp [allPairs_eq_nil]

lemma mem_allPairs {l : List Point3} {a b : Point3} :
    (a, b) ∈ allPairs l ↔
      ∃ i j : ℕ, i < j ∧ l[i]? = some a ∧ l[j]? = some b := by
  induction l with
  | nil => simp [allPairs]
  | cons p rest ih =>
    simp only [allPairs, List.mem_append, List.mem_map, Prod.mk.injEq]
    constructor
    · rintro (⟨q, hq, rfl, rfl⟩ | hrec)
      · obtain ⟨j, hj, hjq⟩ := List.getElem_of_mem hq
        exact ⟨0, j + 1, Nat.succ_pos j, by simp,
          by rw [List.getElem?_cons_succ]; rw [List.getElem?_eq_getElem hj, hjq]⟩
      · obtain ⟨i, j, hij, ha, hb⟩ := ih.mp hrec
        exact ⟨i + 1, j + 1, Nat.succ_lt_succ hij,
          by rwa [List.getElem?_cons_succ],
          by rwa [List.getElem?_cons_succ]⟩
    · rintro ⟨i, j, hij, ha, hb⟩
      cases i with
      | zero =>
        left
        rw [List.getElem?_cons_zero, Option.some.injEq] at ha
        obtain ⟨j', rfl⟩ : ∃ j', j = j' + 1 := ⟨j - 1, by omega⟩
        rw [List.getElem?_cons_succ] at hb
        exact ⟨b, List.mem_iff_getElem?.mpr ⟨j', hb⟩, ha, rfl⟩
      | succ i' =>
        right
        obtain ⟨j', rfl⟩ : ∃ j', j = j' + 1 := ⟨j - 1, by omega⟩
        rw [List.getElem?_cons_succ] at ha hb
        exact ih.mpr ⟨i', j', by omega, ha, hb⟩

/-- The frame at one sample index: `positionsInCurrentFrame[droneIndex] =
positionsByDrones[droneIndex][frameIndex]`, the loop body of
`getNearestNeighborDistancesForFrames`. -/
def frameAt (positionsByDrones : List (List Point3)) (frameIndex : ℕ) :
    List Point3 :=
  positionsByDrones.map (fun positions => positions.getD frameIndex default)

/-- The per-frame result: `closestPair ? Math.hypot(dx, dy, dz) : null`. -/
noncomputable def closestPairDistance (frame : List Point3) : Option ℝ :=
  match getClosestPair frame with
  | some pq => some (hypot3 (pq.1.x - pq.2.x) (pq.1.y - pq.2.y) (pq.1.z - pq.2.z))
  | none => none

/-- Embedding of `getNearestNeighborDistancesForFrames` (selectors module):
one entry per sampled time instant, each the distance of the closest drone
pair of that frame, or null when there is no pair. -/
noncomputable def getNearestNeighborDistancesForFrames
    (positionsByDrones : List (List Point3)) (times : List ℚ) :
    List (Option ℝ) :=
  (List.range times.length).map (fun frameIndex =>
    closestPairDistance (frameAt positionsByDrones frameIndex))

lemma getD_map_range {α : Type} (f : ℕ → α) (d : α) {n i : ℕ} (h : i < n) :
    ((List.range n).map f).getD i d = f i := by
  rw [List.getD_eq_getElem?_getD, List.getElem?_map, List.getElem?_range h]
  rfl

lemma dist3_eq_sqrt (p q : Point3) :
    dist3 p q = Real.sqrt ((distSq p q : ℚ) : ℝ) := by
  rw [dist3, hypot3, distSq]
  congr 1
  push_cast
  ring

lemma dist3_le_dist3 {p q a b : Point3} (h : distSq p q ≤ distSq a b) :
    dist3 p q ≤ dist3 a b := by
  rw [dist3_eq_sqrt, dist3_eq_sqrt]
  apply Real.sqrt_le_sqrt
  exact_mod_cast h

/-- C4: an entry of `getNearestNeighborDistancesForFrames` is null exactly
when the frame holds fewer than two drone positions; such frames are not an
error. -/
theorem nearestNeighborDistances_null_iff (positionsByDrones : List (List Point3))
    (times : List ℚ) (frameIndex : ℕ) (hf : frameIndex < times.length) :
    ((getNearestNeighborDistancesForFrames positionsByDrones times).getD
        frameIndex none = none) ↔
      (frameAt positionsByDrones frameIndex).length < 2 := by
  rw [getNearestNeighborDistancesForFrames, getD_map_range _ _ hf]
  have hlen : (frameAt positionsByDrones frameIndex).length
      = positionsByDrones.length := by
    simp [frameAt]
  unfold closestPairDistance
  cases hcp : getClosestPair (frameAt positionsByDrones frameIndex) with
  | none =>
    have h2 := (getClosestPair_eq_none _).mp hcp
    simp only [true_iff]
    omega
  | some pq =>
    have h2 : ¬ (frameAt positionsByDrones frameIndex).length ≤ 1 := by
      intro hle
      rw [← getClosestPair_eq_none] at hle
      rw [hcp] at hle
      cases hle
    constructor
    · intro habs
      cases habs
    · intro hlt
      exact absurd hlt (by omega)

/-- C1: for every frame with at least two drone positions the produced entry
is precisely the least element of the set of all pairwise 3D Euclidean
distances √(dx² + dy² + dz²) over index pairs i < j — the exact global
minimum, not an approximation. -/
theorem nearestNeighborDistances_exact_min (positionsByDrones : List (List Point3))
    (times : List ℚ) (frameIndex : ℕ) (hf : frameIndex < times.length)
    (htwo : 2 ≤ (frameAt positionsByDrones frameIndex).length) :
    ∃ r : ℝ,
      (getNearestNeighborDistancesForFrames positionsByDrones times).getD
          frameIndex none = some r ∧
      IsLeast { x : ℝ | ∃ i j : ℕ, i < j ∧
        j < (frameAt positionsByDrones frameIndex).length ∧
        x = dist3 ((frameAt positionsByDrones frameIndex).getD i default)
          ((frameAt positionsByDrones frameIndex).getD j default) } r := by
  set frame := frameAt positionsByDrones frameIndex with hframe
  obtain ⟨pq, hpq⟩ : ∃ pq, getClosestPair frame = some pq := by
    cases hcp : getClosestPair frame with
    | none =>
      have := (getClosestPair_eq_none _).mp hcp
      omega
    | some pq => exact ⟨pq, rfl⟩
  obtain ⟨hmem, hmin, _⟩ := foldl_pickCloser_spec _ _ _ hpq
  rcases hmem with hmem | hmem
  swap
  · exact absurd hmem (by simp)
  refine ⟨dist3 pq.1 pq.2, ?_, ?_, ?_⟩
  · rw [getNearestNeighborDistancesForFrames, getD_map_range _ _ hf]
    unfold closestPairDistance
    rw [← hframe, hpq]
    rfl
  · have hmem' : (pq.1, pq.2) ∈ allPairs frame := by simpa using hmem
    obtain ⟨i, j, hij, ha, hb⟩ := mem_allPairs.mp hmem'
    obtain ⟨hjlen, hjb⟩ := List.getElem?_eq_some.mp hb
    obtain ⟨hilen, hia⟩ := List.getElem?_eq_some.mp ha
    refine ⟨i, j, hij, hjlen, ?_⟩
    rw [List.getD_eq_getElem?_getD, ha, List.getD_eq_getElem?_getD, hb]
    rfl
  · rintro x ⟨i, j, hij, hjlen, rfl⟩
    have hilen : i < frame.length := lt_trans hij hjlen
    have hi : frame[i]? = some (frame.getD i default) := by
      rw [List.getD_eq_getElem?_getD, List.getElem?_eq_getElem hilen]
      rfl
    have hj : frame[j]? = some (frame.getD j default) := by
      rw [List.getD_eq_getElem?_getD, List.getElem?_eq_getElem hjlen]
      rfl
    have hmem2 : (frame.getD i default, frame.getD j default) ∈ allPairs frame :=
      mem_allPairs.mpr ⟨i, j, hij, hi, hj⟩
    have h5 : distSq pq.1 pq.2
        ≤ distSq (frame.getD i default) (frame.getD j default) :=
      hmin (frame.getD i default, frame.getD j default) hmem2
    exact dist3_le_dist3 h5


/-- Witness for C4 on a one-drone frame. -/
theorem nearestNeighborDistances_null_iff_witness :
    (0 < [(0:ℚ)].length ∧
      ((getNearestNeighborDistancesForFrames [[Point3.mk 0 0 0]] [0]).getD 0 none
          = none ↔
        (frameAt [[Point3.mk 0 0 0]] 0).length < 2)) :=
  ⟨by decide, nearestNeighborDistances_null_iff [[Point3.mk 0 0 0]] [0] 0 (by decide)⟩

/-- Witness for C1 on a concrete two-drone frame. -/
theorem nearestNeighborDistances_exact_min_witness :
    (0 < [(0:ℚ)].length ∧
      2 ≤ (frameAt [[Point3.mk 0 0 0], [Point3.mk 3 4 0]] 0).length) ∧
    (∃ r : ℝ,
      (getNearestNeighborDistancesForFrames
          [[Point3.mk 0 0 0], [Point3.mk 3 4 0]] [0]).getD 0 none = some r ∧
      IsLeast { x : ℝ | ∃ i j : ℕ, i < j ∧
        j < (frameAt [[Point3.mk 0 0 0], [Point3.mk 3 4 0]] 0).length ∧
        x = dist3 ((frameAt [[Point3.mk 0 0 0], [Point3.mk 3 4 0]] 0).getD i default)
          ((frameAt [[Point3.mk 0 0 0], [Point3.mk 3 4 0]] 0).getD j default) } r) :=
  ⟨⟨by decide, by decide⟩,
    nearestNeighborDistances_exact_min [[Point3.mk 0 0 0], [Point3.mk 3 4 0]] [0] 0
      (by decide) (by decide)⟩

/-- JavaScript `Math.hypot(a, b)`: the Euclidean norm √(a² + b²). -/
noncomputable def hypot2 (a b : ℚ) : ℝ :=
  Real.sqrt ((a : ℝ)^2 + (b : ℝ)^2)

/-- Embedding of `getSampledHorizontalVelocitiesForDrones` (selectors
module): per drone and sample, `Math.hypot(coord.x, coord.y)` of the sampled
velocity. -/
noncomputable def getSampledHorizontalVelocitiesForDrones
    (velocitiesByDrones : List (List Point3)) : List (List ℝ) :=
  velocitiesByDrones.map (fun velocities =>
    velocities.map (fun coord => hypot2 coord.x coord.y))

/-- Embedding of `getSampledVerticalVelocitiesForDrones` (selectors module):
per drone and sample, the z-coordinate of the sampled velocity, verbatim. -/
def getSampledVerticalVelocitiesForDrones
    (velocitiesByDrones : List (List Point3)) : List (List ℚ) :=
  velocitiesByDrones.map (fun velocities => velocities.map (fun coord => coord.z))

lemma getD_map {α β : Type} (l : List α) (f : α → β) (dα : α) (dβ : β) {i : ℕ}
    (h : i < l.length) : (l.map f).getD i dβ = f (l.getD i dα) := by
  rw [List.getD_eq_getElem?_getD, List.getElem?_map, List.getD_eq_getElem?_getD,
    List.getElem?_eq_getElem h]
  rfl

lemma hypot2_eq_norm (a b : ℚ) :
    hypot2 a b = ‖(WithLp.equiv 2 (Fin 2 → ℝ)).symm ![(a : ℝ), (b : ℝ)]‖ := by
  rw [EuclideanSpace.norm_eq]
  simp [WithLp.equiv_symm_pi_apply, Fin.sum_univ_two, Real.norm_eq_abs, sq_abs,
    hypot2]

lemma hypot2_three_four : hypot2 3 4 = 5 := by
  rw [hypot2]
  rw [show (((3:ℚ):ℝ))^2 + (((4:ℚ):ℝ))^2 = 5^2 by push_cast; norm_num]
  exact Real.sqrt_sq (by norm_num)

/-- C8: every horizontal-speed entry is the Euclidean norm of the (x, y)
velocity components and every vertical-speed entry is the signed
z-coordinate of velocity taken verbatim; in particular velocity (3, 4, 0)
yields horizontal speed 5 and vertical speed 0. -/
theorem sampledSpeeds_spec (velocitiesByDrones : List (List Point3)) (d s : ℕ)
    (hd : d < velocitiesByDrones.length)
    (hs : s < (velocitiesByDrones.getD d []).length) :
    (((getSampledHorizontalVelocitiesForDrones velocitiesByDrones).getD d []).getD
        s 0
      = ‖(WithLp.equiv 2 (Fin 2 → ℝ)).symm
          ![(((velocitiesByDrones.getD d []).getD s default).x : ℝ),
            (((velocitiesByDrones.getD d []).getD s default).y : ℝ)]‖) ∧
    (((getSampledVerticalVelocitiesForDrones velocitiesByDrones).getD d []).getD
        s 0
      = ((velocitiesByDrones.getD d []).getD s default).z) ∧
    getSampledHorizontalVelocitiesForDrones [[Point3.mk 3 4 0]] = [[5]] ∧
    getSampledVerticalVelocitiesForDrones [[Point3.mk 3 4 0]] = [[0]] := by
  refine ⟨?_, ?_, ?_, ?_⟩
  · rw [getSampledHorizontalVelocitiesForDrones, getD_map _ _ [] [] hd,
      getD_map _ _ default 0 hs, hypot2_eq_norm]
  · rw [getSampledVerticalVelocitiesForDrones, getD_map _ _ [] [] hd,
      getD_map _ _ default 0 hs]
  · show [[hypot2 3 4]] = [[5]]
    rw [hypot2_three_four]
  · rfl

/-- Witness for C8 at the single velocity sample (3, 4, 0). -/
theorem sampledSpeeds_spec_witness :
    (0 < ([[Point3.mk 3 4 0]] : List (List Point3)).length ∧
      0 < (([[Point3.mk 3 4 0]] : List (List Point3)).getD 0 []).length) ∧
    ((((getSampledHorizontalVelocitiesForDrones [[Point3.mk 3 4 0]]).getD 0
          []).getD 0 0
      = ‖(WithLp.equiv 2 (Fin 2 → ℝ)).symm
          ![(((([[Point3.mk 3 4 0]] : List (List Point3)).getD 0 []).getD 0
              default).x : ℝ),
            (((([[Point3.mk 3 4 0]] : List (List Point3)).getD 0 []).getD 0
              default).y : ℝ)]‖) ∧
    ((((getSampledVerticalVelocitiesForDrones [[Point3.mk 3 4 0]]).getD 0
          []).getD 0 0)
      = ((([[Point3.mk 3 4 0]] : List (List Point3)).getD 0 []).getD 0
          default).z) ∧
    getSampledHorizontalVelocitiesForDrones [[Point3.mk 3 4 0]] = [[5]] ∧
    getSampledVerticalVelocitiesForDrones [[Point3.mk 3 4 0]] = [[0]]) :=
  ⟨⟨by decide, by decide⟩,
    sampledSpeeds_spec [[Point3.mk 3 4 0]] 0 0 (by decide) (by decide)⟩

/-- The external trajectory-player capability (spec §4.2): position and
velocity at a time.  The source passes a second options argument
`{ t: time }` to both calls; it carries the same time and is dropped here. -/
structure TrajectoryPlayer where
  getPositionAt : ℚ → Point3
  getVelocityAt : ℚ → Point3

instance : Inhabited TrajectoryPlayer :=
  ⟨⟨fun _ => default, fun _ => default⟩⟩

/-- Embedding of `getSampledPositionsForDrones` (selectors module). -/
def getSampledPositionsForDrones (players : List TrajectoryPlayer)
    (samples : List ℚ) : List (List Point3) :=
  players.map (fun player => samples.map (fun time => player.getPositionAt time))

/-- Embedding of `getSampledVelocitiesForDrones` (selectors module). -/
def getSampledVelocitiesForDrones (players : List TrajectoryPlayer)
    (samples : List ℚ) : List (List Point3) :=
  players.map (fun player => samples.map (fun time => player.getVelocityAt time))

/-- Embedding of `getSampledAltitudesForDrones` (selectors module): the
z-coordinate of each sampled position, verbatim. -/
def getSampledAltitudesForDrones (positionsByDrones : List (List Point3)) :
    List (List ℚ) :=
  positionsByDrones.map (fun positions => positions.map (fun coord => coord.z))

/-- C9: each per-drone altitude, horizontal-speed and vertical-speed sequence
and the per-frame closest-pair sequence has exactly one entry per sampled
time instant, and entry `s` is derived from evaluating the players at grid
instant `s`. -/
theorem derivedSequences_aligned (players : List TrajectoryPlayer)
    (rate duration : ℚ) (d s : ℕ) (hd : d < players.length)
    (hs : s < (getSampledTimeInstants rate duration).length) :
    ((getSampledAltitudesForDrones (getSampledPositionsForDrones players
        (getSampledTimeInstants rate duration))).getD d []).length
      = (getSampledTimeInstants rate duration).length ∧
    ((getSampledHorizontalVelocitiesForDrones (getSampledVelocitiesForDrones
        players (getSampledTimeInstants rate duration))).getD d []).length
      = (getSampledTimeInstants rate duration).length ∧
    ((getSampledVerticalVelocitiesForDrones (getSampledVelocitiesForDrones
        players (getSampledTimeInstants rate duration))).getD d []).length
      = (getSampledTimeInstants rate duration).length ∧
    (getNearestNeighborDistancesForFrames (getSampledPositionsForDrones players
        (getSampledTimeInstants rate duration))
        (getSampledTimeInstants rate duration)).length
      = (getSampledTimeInstants rate duration).length ∧
    ((getSampledAltitudesForDrones (getSampledPositionsForDrones players
        (getSampledTimeInstants rate duration))).getD d []).getD s 0
      = ((players.getD d default).getPositionAt
          ((getSampledTimeInstants rate duration).getD s 0)).z ∧
    ((getSampledHorizontalVelocitiesForDrones (getSampledVelocitiesForDrones
        players (getSampledTimeInstants rate duration))).getD d []).getD s 0
      = hypot2 ((players.getD d default).getVelocityAt
            ((getSampledTimeInstants rate duration).getD s 0)).x
          ((players.getD d default).getVelocityAt
            ((getSampledTimeInstants rate duration).getD s 0)).y ∧
    ((getSampledVerticalVelocitiesForDrones (getSampledVelocitiesForDrones
        players (getSampledTimeInstants rate duration))).getD d []).getD s 0
      = ((players.getD d default).getVelocityAt
          ((getSampledTimeInstants rate duration).getD s 0)).z ∧
    (getNearestNeighborDistancesForFrames (getSampledPositionsForDrones players
        (getSampledTimeInstants rate duration))
        (getSampledTimeInstants rate duration)).getD s none
      = closestPairDistance (players.map (fun player =>
          player.getPositionAt
            ((getSampledTimeInstants rate duration).getD s 0))) := by
  set S := getSampledTimeInstants rate duration with hS
  have hPd : (getSampledPositionsForDrones players S).getD d []
      = S.map (fun time => (players.getD d default).getPositionAt time) := by
    rw [getSampledPositionsForDrones, getD_map _ _ default [] hd]
  have hVd : (getSampledVelocitiesForDrones players S).getD d []
      = S.map (fun time => (players.getD d default).getVelocityAt time) := by
    rw [getSampledVelocitiesForDrones, getD_map _ _ default [] hd]
  have hPlen : (getSampledPositionsForDrones players S).length
      = players.length := by
    simp [getSampledPositionsForDrones]
  have hVlen : (getSampledVelocitiesForDrones players S).length
      = players.length := by
    simp [getSampledVelocitiesForDrones]
  have hPdlen : ((getSampledPositionsForDrones players S).getD d []).length
      = S.length := by
    rw [hPd, List.length_map]
  have hVdlen : ((getSampledVelocitiesForDrones players S).getD d []).length
      = S.length := by
    rw [hVd, List.length_map]
  refine ⟨?_, ?_, ?_, ?_, ?_, ?_, ?_, ?_⟩
  · rw [getSampledAltitudesForDrones, getD_map _ _ [] [] (by omega : d <
      (getSampledPositionsForDrones players S).length), List.length_map, hPdlen]
  · rw [getSampledHorizontalVelocitiesForDrones, getD_map _ _ [] [] (by omega :
      d < (getSampledVelocitiesForDrones players S).length), List.length_map,
      hVdlen]
  · rw [getSampledVerticalVelocitiesForDrones, getD_map _ _ [] [] (by omega :
      d < (getSampledVelocitiesForDrones players S).length), List.length_map,
      hVdlen]
  · simp [getNearestNeighborDistancesForFrames]
  · rw [getSampledAltitudesForDrones, getD_map _ _ [] [] (by omega : d <
      (getSampledPositionsForDrones players S).length),
      getD_map _ _ default 0 (by omega : s <
        ((getSampledPositionsForDrones players S).getD d []).length),
      hPd, getD_map _ _ 0 default hs]
  · rw [getSampledHorizontalVelocitiesForDrones, getD_map _ _ [] [] (by omega :
      d < (getSampledVelocitiesForDrones players S).length),
      getD_map _ _ default 0 (by omega : s <
        ((getSampledVelocitiesForDrones players S).getD d []).length),
      hVd, getD_map _ _ 0 default hs]
  · rw [getSampledVerticalVelocitiesForDrones, getD_map _ _ [] [] (by omega :
      d < (getSampledVelocitiesForDrones players S).length),
      getD_map _ _ default 0 (by omega : s <
        ((getSampledVelocitiesForDrones players S).getD d []).length),
      hVd, getD_map _ _ 0 default hs]
  · rw [getNearestNeighborDistancesForFrames, getD_map_range _ _ hs]
    congr 1
    rw [frameAt, getSampledPositionsForDrones, List.map_map]
    refine List.map_congr_left ?_
    intro player _
    show (S.map (fun time => player.getPositionAt time)).getD s default
      = player.getPositionAt (S.getD s 0)
    rw [getD_map _ _ 0 default hs]

lemma sampled_one_one : getSampledTimeInstants 1 1 = [0, 1] := by
  rw [sampled_pos_eq (by norm_num) (by norm_num)]
  rw [show ⌈(1:ℚ) * 1⌉ = (1:ℤ) by norm_num]
  rw [show ((1:ℤ)).toNat = 1 from rfl, List.range_succ]
  norm_num

/-- A sample trajectory player used by concrete witnesses. -/
def demoPlayer : TrajectoryPlayer :=
  ⟨fun t => ⟨t, 2 * t, 3 * t⟩, fun t => ⟨3 * t, 4 * t, 5 * t⟩⟩

/-- Witness for C9 with one demo player on the grid of duration 1 at rate 1. -/
theorem derivedSequences_aligned_witness :
    (0 < ([demoPlayer] : List TrajectoryPlayer).length ∧
      0 < (getSampledTimeInstants 1 1).length) ∧
    (((getSampledAltitudesForDrones (getSampledPositionsForDrones [demoPlayer]
        (getSampledTimeInstants 1 1))).getD 0 []).length
      = (getSampledTimeInstants 1 1).length ∧
    ((getSampledHorizontalVelocitiesForDrones (getSampledVelocitiesForDrones
        [demoPlayer] (getSampledTimeInstants 1 1))).getD 0 []).length
      = (getSampledTimeInstants 1 1).length ∧
    ((getSampledVerticalVelocitiesForDrones (getSampledVelocitiesForDrones
        [demoPlayer] (getSampledTimeInstants 1 1))).getD 0 []).length
      = (getSampledTimeInstants 1 1).length ∧
    (getNearestNeighborDistancesForFrames (getSampledPositionsForDrones
        [demoPlayer] (getSampledTimeInstants 1 1))
        (getSampledTimeInstants 1 1)).length
      = (getSampledTimeInstants 1 1).length ∧
    ((getSampledAltitudesForDrones (getSampledPositionsForDrones [demoPlayer]
        (getSampledTimeInstants 1 1))).getD 0 []).getD 0 0
      = ((([demoPlayer] : List TrajectoryPlayer).getD 0 default).getPositionAt
          ((getSampledTimeInstants 1 1).getD 0 0)).z ∧
    ((getSampledHorizontalVelocitiesForDrones (getSampledVelocitiesForDrones
        [demoPlayer] (getSampledTimeInstants 1 1))).getD 0 []).getD 0 0
      = hypot2 ((([demoPlayer] : List TrajectoryPlayer).getD 0
            default).getVelocityAt ((getSampledTimeInstants 1 1).getD 0 0)).x
          ((([demoPlayer] : List TrajectoryPlayer).getD 0
            default).getVelocityAt ((getSampledTimeInstants 1 1).getD 0 0)).y ∧
    ((getSampledVerticalVelocitiesForDrones (getSampledVelocitiesForDrones
        [demoPlayer] (getSampledTimeInstants 1 1))).getD 0 []).getD 0 0
      = ((([demoPlayer] : List TrajectoryPlayer).getD 0 default).getVelocityAt
          ((getSampledTimeInstants 1 1).getD 0 0)).z ∧
    (getNearestNeighborDistancesForFrames (getSampledPositionsForDrones
        [demoPlayer] (getSampledTimeInstants 1 1))
        (getSampledTimeInstants 1 1)).getD 0 none
      = closestPairDistance (([demoPlayer] : List TrajectoryPlayer).map
          (fun player => player.getPositionAt
            ((getSampledTimeInstants 1 1).getD 0 0)))) :=
  ⟨⟨by decide, by rw [sampled_one_one]; decide⟩,
    derivedSequences_aligned [demoPlayer] 1 1 0 0 (by decide)
      (by rw [sampled_one_one]; decide)⟩

/-- C10: the derived altitude, horizontal-speed and vertical-speed sequences
are a deterministic pure function of the declared inputs: trajectory players
that agree observably (same count, same positions and velocities at every
time) and equal durations produce identical output sequences. -/
theorem derivedSequences_deterministic (players₁ players₂ : List TrajectoryPlayer)
    (rate duration₁ duration₂ : ℚ)
    (hlen : players₁.length = players₂.length)
    (hagree : ∀ i : ℕ, i < players₁.length → ∀ t : ℚ,
      (players₁.getD i default).getPositionAt t
          = (players₂.getD i default).getPositionAt t ∧
      (players₁.getD i default).getVelocityAt t
          = (players₂.getD i default).getVelocityAt t)
    (hdur : duration₁ = duration₂) :
    getSampledAltitudesForDrones (getSampledPositionsForDrones players₁
        (getSampledTimeInstants rate duration₁))
      = getSampledAltitudesForDrones (getSampledPositionsForDrones players₂
        (getSampledTimeInstants rate duration₂)) ∧
    getSampledHorizontalVelocitiesForDrones (getSampledVelocitiesForDrones
        players₁ (getSampledTimeInstants rate duration₁))
      = getSampledHorizontalVelocitiesForDrones (getSampledVelocitiesForDrones
        players₂ (getSampledTimeInstants rate duration₂)) ∧
    getSampledVerticalVelocitiesForDrones (getSampledVelocitiesForDrones
        players₁ (getSampledTimeInstants rate duration₁))
      = getSampledVerticalVelocitiesForDrones (getSampledVelocitiesForDrones
        players₂ (getSampledTimeInstants rate duration₂)) := by
  subst hdur
  have hpl : players₁ = players₂ := by
    apply List.ext_getElem hlen
    intro i h1 h2
    have h := hagree i h1
    have hA : players₁[i] = players₁.getD i default :=
      (List.getD_eq_getElem players₁ default h1).symm
    have hB : players₂[i] = players₂.getD i default :=
      (List.getD_eq_getElem players₂ default h2).symm
    rw [hA, hB]
    cases hA2 : players₁.getD i default with
    | mk f g =>
      cases hB2 : players₂.getD i default with
      | mk f2 g2 =>
        congr 1
        · funext t
          have := (h t).1
          rw [hA2, hB2] at this
          exact this
        · funext t
          have := (h t).2
          rw [hA2, hB2] at this
          exact this
  rw [hpl]
  exact ⟨rfl, rfl, rfl⟩

/-- Witness for C10 with two observably equal one-player lists. -/
theorem derivedSequences_deterministic_witness :
    (([demoPlayer] : List TrajectoryPlayer).length
        = ([demoPlayer] : List TrajectoryPlayer).length ∧
      (∀ i : ℕ, i < ([demoPlayer] : List TrajectoryPlayer).length → ∀ t : ℚ,
        (([demoPlayer] : List TrajectoryPlayer).getD i default).getPositionAt t
            = (([demoPlayer] : List TrajectoryPlayer).getD i
                default).getPositionAt t ∧
        (([demoPlayer] : List TrajectoryPlayer).getD i default).getVelocityAt t
            = (([demoPlayer] : List TrajectoryPlayer).getD i
                default).getVelocityAt t) ∧
      (1 : ℚ) = 1) ∧
    (getSampledAltitudesForDrones (getSampledPositionsForDrones [demoPlayer]
        (getSampledTimeInstants 1 1))
      = getSampledAltitudesForDrones (getSampledPositionsForDrones [demoPlayer]
        (getSampledTimeInstants 1 1)) ∧
    getSampledHorizontalVelocitiesForDrones (getSampledVelocitiesForDrones
        [demoPlayer] (getSampledTimeInstants 1 1))
      = getSampledHorizontalVelocitiesForDrones (getSampledVelocitiesForDrones
        [demoPlayer] (getSampledTimeInstants 1 1)) ∧
    getSampledVerticalVelocitiesForDrones (getSampledVelocitiesForDrones
        [demoPlayer] (getSampledTimeInstants 1 1))
      = getSampledVerticalVelocitiesForDrones (getSampledVelocitiesForDrones
        [demoPlayer] (getSampledTimeInstants 1 1))) :=
  ⟨⟨rfl, fun _ _ _ => ⟨rfl, rfl⟩, rfl⟩,
    derivedSequences_deterministic [demoPlayer] [demoPlayer] 1 1 1 rfl
      (fun _ _ _ => ⟨rfl, rfl⟩) rfl⟩

/-- The resolved validation settings `{maxAltitude, maxVelocityXY,
maxVelocityZ, minDistance}`; a `none` field models a JavaScript `undefined`
value. -/
structure ValidationSettings where
  maxAltitude : Option ℚ
  maxVelocityXY : Option ℚ
  maxVelocityZ : Option ℚ
  minDistance : Option ℚ
deriving DecidableEq, Repr

/-- A raw validation-settings record as read from a show file: it may carry
legacy underscore-styled keys, canonical camel-cased keys, or any mix; a
`none` field models an absent key. -/
structure RawValidation where
  max_altitude : Option ℚ := none
  max_velocity_xy : Option ℚ := none
  max_velocity_z : Option ℚ := none
  min_distance : Option ℚ := none
  maxAltitude : Option ℚ := none
  maxVelocityXY : Option ℚ := none
  maxVelocityZ : Option ℚ := none
  minDistance : Option ℚ := none
deriving DecidableEq, Repr

/-- One key of JavaScript `Object.assign(target, source)`: a key present on
the source overrides the target, an absent key keeps it. -/
def assignKey (target source : Option ℚ) : Option ℚ :=
  match source with
  | some v => some v
  | none => target

/-- Embedding of `getValidationSettings` (selectors module).  The
environment-default table `DEFAULT_VALIDATION_SETTINGS[type] ||
DEFAULT_VALIDATION_SETTINGS.outdoor` lives in the repository's `constants`
module, which is not among the provided sources; the already-resolved
default record is abstracted as the `defaults` argument.  The legacy branch
is taken exactly when `validation.max_altitude !== undefined`, and then
copies all four legacy keys; otherwise the canonical keys are shallow-merged
over the defaults. -/
def getValidationSettings (defaults : ValidationSettings)
    (validation : Option RawValidation) : ValidationSettings :=
  match validation with
  | none => defaults
  | some v =>
    match v.max_altitude with
    | some _ =>
      { maxAltitude := v.max_altitude
        maxVelocityXY := v.max_velocity_xy
        maxVelocityZ := v.max_velocity_z
        minDistance := v.min_distance }
    | none =>
      { maxAltitude := assignKey defaults.maxAltitude v.maxAltitude
        maxVelocityXY := assignKey defaults.maxVelocityXY v.maxVelocityXY
        maxVelocityZ := assignKey defaults.maxVelocityZ v.maxVelocityZ
        minDistance := assignKey defaults.minDistance v.minDistance }

/-- C5: a full legacy-shaped input (max_altitude 50, max_velocity_xy 5,
max_velocity_z 3, min_distance 2) resolves to the corresponding canonical
record, overriding all four environment defaults, whatever they are. -/
theorem getValidationSettings_legacy_full (defaults : ValidationSettings) :
    getValidationSettings defaults
      (some { max_altitude := some 50, max_velocity_xy := some 5,
              max_velocity_z := some 3, min_distance := some 2 })
      = ⟨some 50, some 5, some 3, some 2⟩ := rfl

/-- C6: a canonical partial input carrying only maxAltitude 80 overrides
only that field; the other three retain the environment defaults. -/
theorem getValidationSettings_canonical_partial (defaults : ValidationSettings) :
    getValidationSettings defaults (some { maxAltitude := some 80 })
      = ⟨some 80, defaults.maxVelocityXY, defaults.maxVelocityZ,
          defaults.minDistance⟩ := by
  cases defaults
  rfl

/-- C7: presence of the legacy altitude key alone selects the legacy branch,
which overwrites all four canonical fields unconditionally — legacy keys
that are absent drive the corresponding field to undefined instead of
retaining the environment default. -/
theorem getValidationSettings_legacy_partial (defaults : ValidationSettings)
    (v : RawValidation) (h : v.max_altitude.isSome) :
    getValidationSettings defaults (some v)
      = ⟨v.max_altitude, v.max_velocity_xy, v.max_velocity_z,
          v.min_distance⟩ := by
  obtain ⟨a, hv⟩ := Option.isSome_iff_exists.mp h
  simp only [getValidationSettings, hv]

/-- Witness for C7: a legacy input carrying only max_altitude 50 wipes the
other three defaults to undefined. -/
theorem getValidationSettings_legacy_partial_witness :
    (RawValidation.max_altitude { max_altitude := some 50 }).isSome = true ∧
    getValidationSettings ⟨some 120, some 8, some 2, some 3⟩
        (some { max_altitude := some 50 })
      = ⟨some 50, none, none, none⟩ :=
  ⟨rfl, getValidationSettings_legacy_partial ⟨some 120, some 8, some 2, some 3⟩
    { max_altitude := some 50 } rfl⟩

end Viewer
